import Mathlib

/-!
Verification of the SMTP receiver (`smtp_server.py`) and the POP3 server
(`pop3_server.py`) of the repository, as a shallow embedding.

Conventions of the embedding:
* Python strings are `List Char` (abbreviated `Str`);
* a socket that has been read line by line is a `List Str` of the lines
  already stripped of their CRLF terminators, end of list = end of input
  (peer disconnect);
* the shared mailbox directory is a `List DiskFile`;
* replies are written as inductive tags or reply strings, in the order the
  code writes them;
* a Python exception that a handler catches is an `Except Str` error value
  carrying `str(e)`; an exception no handler catches is `Option.none`.
-/

/-- Character strings, the embedding of Python `str`. -/
abbrev Str := List Char

/-- Whitespace recognised by Python `str.split` and by the regex class
`\s` (ASCII range): space, tab, newline, carriage return, vertical tab,
form feed. -/
def pyIsSpace (c : Char) : Bool :=
  c == ' ' || c == '\t' || c == '\n' || c == '\r' || c == '\x0b' || c == '\x0c'

/-- Python `s.upper()` on ASCII text. -/
def pyUpper (s : Str) : Str := s.map Char.toUpper

/-- Python `s.split()` with no arguments: tokens separated by runs of
whitespace, leading and trailing whitespace dropped. -/
def pySplit : Str → List Str
  | [] => []
  | c :: rest =>
    if pyIsSpace c then pySplit rest
    else (c :: rest.takeWhile (fun d => !(pyIsSpace d))) ::
         pySplit (rest.dropWhile (fun d => !(pyIsSpace d)))
termination_by s => s.length
decreasing_by
  · simp
  · have h := (List.dropWhile_sublist (l := rest) (fun d => !(pyIsSpace d))).length_le
    simp only [List.length_cons]
    omega

/-- Element `parts[1]` of Python `s.split(maxsplit=1)` when `len(parts) > 1`,
else `none`: skip leading whitespace, skip the first token, skip the
whitespace run after it; the remainder (trailing whitespace kept) is the
second element when it is nonempty. -/
def pySplitMax1Rem (s : Str) : Option Str :=
  let rem := ((s.dropWhile pyIsSpace).dropWhile (fun d => !(pyIsSpace d))).dropWhile pyIsSpace
  if rem = [] then none else some rem

/-- Value of a string of decimal digits. -/
def digitsVal (ds : List Char) : Nat :=
  ds.foldl (fun a c => a * 10 + (c.toNat - '0'.toNat)) 0

/-- Python `int(s)` on a whitespace-free token: an optional sign followed by
one or more decimal digits; anything else raises `ValueError` (`none`). -/
def pyInt (s : Str) : Option Int :=
  match s with
  | '-' :: ds => if !ds.isEmpty && ds.all Char.isDigit then some (-(digitsVal ds : Int)) else none
  | '+' :: ds => if !ds.isEmpty && ds.all Char.isDigit then some (digitsVal ds : Int) else none
  | ds => if !ds.isEmpty && ds.all Char.isDigit then some (digitsVal ds : Int) else none

/-- Decimal digits of a natural number, for the f-strings of the reply
texts. -/
def natStr (n : Nat) : Str := Nat.toDigits 10 n

/-- Decimal rendering of a Python int. -/
def intStr (i : Int) : Str := if i < 0 then '-' :: natStr i.natAbs else natStr i.toNat

/-- The SMTP DATA transparency rule, from the DATA read loop of
`handle_client` in smtp_server.py: a received line starting with two dots
has one leading dot removed (`if line.startswith(".."): line = line[1:]`). -/
def unstuffLine (l : Str) : Str :=
  if (['.', '.']).isPrefixOf l then l.drop 1 else l

/-- The POP3 outbound dot-stuffing of `Maildrop.retr` in pop3_server.py:
a body line starting with a dot gets an extra leading dot
(`if line.startswith("."): out_lines.append("." + line)`). -/
def stuffLine (l : Str) : Str :=
  if (['.']).isPrefixOf l then '.' :: l else l

/-- A line as it can appear on the wire inside a dot-delimited transfer:
it is never a bare single-dot-prefixed line, because transmission stuffed
those; so it starts with two dots or does not start with a dot. -/
def transferLine (l : Str) : Bool :=
  (['.', '.']).isPrefixOf l || !((['.']).isPrefixOf l)

/-! The message store shared by the two engines. -/

/-- One file of the mailbox directory.  `stat().st_size` is modelled as the
character count of the content. -/
structure DiskFile where
  name : Str
  content : Str
  mtime : Nat := 0
deriving DecidableEq, Repr

/-- Size of a file as reported by `stat`. -/
def DiskFile.size (f : DiskFile) : Nat := f.content.length

/-- Reading a file by name: the first directory entry with that name, or
`none` (`FileNotFoundError`). -/
def readFile (disk : List DiskFile) (n : Str) : Option Str :=
  (disk.find? (fun f => f.name == n)).map DiskFile.content

/-- Filename built by `save_email` in smtp_server.py:
`strftime("%Y%m%d%H%M%S") + "_" + str(uuid.uuid4()) + ".eml"`.
The clock reading and the value drawn from `uuid.uuid4()` are explicit
inputs of the model. -/
def emailFilename (timestamp uuidVal : Str) : Str :=
  timestamp ++ ('_' :: uuidVal) ++ ".eml".toList

/-- The record text `save_email` writes: a `From:` line, one `To:` line per
recipient, a blank line, then the body. -/
def emailRecord (mail_from : Str) (rcpt_to : List Str) (body : Str) : Str :=
  ("From: ".toList ++ mail_from ++ ['\n'])
  ++ (rcpt_to.map (fun r => "To: ".toList ++ r ++ ['\n'])).flatten
  ++ ['\n'] ++ body

/-- The `save_email` function of smtp_server.py: creates one new file named
by `emailFilename` holding `emailRecord` in the mailbox directory. -/
def save_email (disk : List DiskFile) (timestamp uuidVal : Str)
    (mail_from : Str) (rcpt_to : List Str) (body : Str) : List DiskFile :=
  disk ++ [{ name := emailFilename timestamp uuidVal
             content := emailRecord mail_from rcpt_to body }]

/-! The SMTP session state machine of `handle_client` in smtp_server.py. -/

/-- The per-connection dict
`state = {"helo": None, "mail_from": None, "rcpt_to": [], "data": None}`. -/
structure SMTPState where
  helo : Option Str
  mail_from : Option Str
  rcpt_to : List Str
  data : Option Str
deriving DecidableEq, Repr

/-- State of a fresh connection. -/
def SMTPState.init : SMTPState := ⟨none, none, [], none⟩

/-- The replies `handle_client` can write, tagged by their status line. -/
inductive SMTPReply where
  /-- 220 greeting on connect. -/
  | r220
  /-- 250 hostname greets the HELO argument. -/
  | r250greet (who : Option Str)
  /-- 250 OK. -/
  | r250ok
  /-- 250 OK: Message accepted for delivery. -/
  | r250accepted
  /-- 354 End data with CRLF dot CRLF. -/
  | r354
  /-- 503 Bad sequence of commands. -/
  | r503
  /-- 501 Syntax error in parameters or arguments. -/
  | r501
  /-- 221 Bye. -/
  | r221
  /-- 502 Command not implemented. -/
  | r502
deriving DecidableEq, Repr

/-- One call of `save_email` as observed by the message store: the
arguments the SMTP engine passed. -/
structure SaveEvent where
  mail_from : Option Str
  rcpt_to : List Str
  body : Str
deriving DecidableEq, Repr

/-- The regex `\s*<([^>]+)>` applied after the literal `MAIL FROM:` or
`RCPT TO:` prefix: optional whitespace, `<`, one or more characters other
than `>`, then `>`; returns the captured group.  (`re.match` allows
arbitrary trailing text after the `>`.) -/
def parseAngleAddr (s : Str) : Option Str :=
  match s.dropWhile pyIsSpace with
  | '<' :: rest =>
    let addr := rest.takeWhile (fun c => c != '>')
    if addr.isEmpty then none
    else if (rest.dropWhile (fun c => c != '>')).isEmpty then none
    else some addr
  | _ => none

/-- Python `"\n".join(lines)`. -/
def joinLines (ls : List Str) : Str := List.intercalate ['\n'] ls

/-- The DATA read loop of `handle_client`: collect lines, applying the
transparency rule, until a line that is a single dot (terminator found,
second component `true`) or end of input (peer disconnected before the
terminator, second component `false`).  Third component: input left after
the loop. -/
def readDataLines : List Str → List Str × Bool × List Str
  | [] => ([], false, [])
  | l :: rest =>
    if l = ['.'] then ([], true, rest)
    else
      let r := readDataLines rest
      (unstuffLine l :: r.1, r.2.1, r.2.2)

/-- One iteration of the command loop of `handle_client` on the command
line `message`; `dataInput` is the further input available to the DATA
read loop.  Result: new state, replies written, `save_email` calls made,
and whether the loop breaks (QUIT).

The DATA branch mirrors the source faithfully: the collected lines are
joined, handed to `save_email` and acknowledged with 250 whether the read
loop ended at the terminating dot or at end of input. -/
def smtpCommand (st : SMTPState) (message : Str) (dataInput : List Str) :
    SMTPState × List SMTPReply × List SaveEvent × Bool :=
  let cmdU := pyUpper message
  if ("HELO".toList).isPrefixOf cmdU then
    let who := pySplitMax1Rem message
    ({ st with helo := who }, [.r250greet who], [], false)
  else if ("MAIL FROM:".toList).isPrefixOf cmdU then
    if st.helo = none then (st, [.r503], [], false)
    else
      match parseAngleAddr (message.drop 10) with
      | some addr =>
        ({ st with mail_from := some addr, rcpt_to := [], data := none }, [.r250ok], [], false)
      | none => (st, [.r501], [], false)
  else if ("RCPT TO:".toList).isPrefixOf cmdU then
    if st.mail_from = none then (st, [.r503], [], false)
    else
      match parseAngleAddr (message.drop 8) with
      | some addr => ({ st with rcpt_to := st.rcpt_to ++ [addr] }, [.r250ok], [], false)
      | none => (st, [.r501], [], false)
  else if cmdU = "DATA".toList then
    if st.rcpt_to = [] then (st, [.r503], [], false)
    else
      let r := readDataLines dataInput
      let body := joinLines r.1
      ({ st with data := some body }, [.r354, .r250accepted],
       [{ mail_from := st.mail_from, rcpt_to := st.rcpt_to, body := body }], false)
  else if cmdU = "QUIT".toList then (st, [.r221], [], true)
  else (st, [.r502], [], false)

/-! The Maildrop of pop3_server.py. -/

/-- Lexicographic string order used by Python `sorted` on paths. -/
def strLe : Str → Str → Bool
  | [], _ => true
  | _ :: _, [] => false
  | a :: as, b :: bs => if a = b then strLe as bs else decide (a < b)

/-- The Maildrop state: the parallel lists `messages` (file names),
`sizes`, `uidls`, and the soft-deletion dict `deleted`.  The Python dict
maps `int` keys to `True`; `get` of a missing key is falsy, so the dict is
a total function to `Bool`. -/
structure Maildrop where
  messages : List Str
  sizes : List Nat
  uidls : List (Str × Nat × Nat)
  deleted : Int → Bool

/-- The maildrop a fresh `POP3Session` constructs (`Maildrop(MAILBOX_DIR)`):
empty lists, empty dict. -/
def Maildrop.empty : Maildrop := ⟨[], [], [], fun _ => false⟩

/-- The `_uidl_for` SHA-1 digest of (file name, size, mtime).  The digest
is modelled by the triple it hashes: deterministic and collision-free, as
the spec treats it. -/
def uidl_for (f : DiskFile) : Str × Nat × Nat := (f.name, f.size, f.mtime)

/-- Insertion into a sorted list, for the model of Python `sorted`. -/
def insertSorted (le : α → α → Bool) (a : α) : List α → List α
  | [] => [a]
  | b :: t => if le a b then a :: b :: t else b :: insertSorted le a t

/-- Insertion sort: the model of Python `sorted` (chosen for its structural
recursion; any sort orders the enumeration the same way). -/
def sortBy (le : α → α → Bool) : List α → List α
  | [] => []
  | a :: t => insertSorted le a (sortBy le t)

/-- The glob pattern: a file matches `*.eml` when its name ends in `.eml`. -/
def isEml (f : DiskFile) : Bool := (".eml".toList).isSuffixOf f.name

/-- The `.eml` files of the directory in sorted order, as enumerated by
`sorted(self.root.glob("*.eml"))`. -/
def enumerateEml (disk : List DiskFile) : List DiskFile :=
  sortBy (fun a b => strLe a.name b.name) (disk.filter isEml)

/-- The `refresh` method: re-enumerate the message files, record their
sizes and UIDLs, clear all deletion marks. -/
def Maildrop.refresh (disk : List DiskFile) : Maildrop :=
  let files := enumerateEml disk
  { messages := files.map DiskFile.name
    sizes := files.map DiskFile.size
    uidls := files.map uidl_for
    deleted := fun _ => false }

/-- The `count_and_octets` method: over the index range of `messages`, sum
1 per non-deleted message and sum the sizes of the non-deleted ones. -/
def Maildrop.count_and_octets (md : Maildrop) : Nat × Nat :=
  (((List.range md.messages.length).map
      (fun (i : Nat) => if md.deleted ((i : Int) + 1) then 0 else 1)).sum,
   (((List.range md.messages.length).filter
      (fun (i : Nat) => !(md.deleted ((i : Int) + 1)))).map (fun i => md.sizes.getD i 0)).sum)

/-- The `list_all` method: the (number, size) pairs of the non-deleted
messages, in number order. -/
def Maildrop.list_all (md : Maildrop) : List (Nat × Nat) :=
  ((List.range md.messages.length).filter
      (fun (i : Nat) => !(md.deleted ((i : Int) + 1)))).map (fun i => (i + 1, md.sizes.getD i 0))

/-- The `_ensure_index` bounds check: `idx < 1 or idx > len(self.messages)`
raises `IndexError("No such message")`; this is the in-range predicate. -/
def Maildrop.ensure_index (md : Maildrop) (idx : Int) : Bool :=
  decide (1 ≤ idx) && decide (idx ≤ (md.messages.length : Int))

/-- The `list_one` method. -/
def Maildrop.list_one (md : Maildrop) (idx : Int) : Except Str (Int × Nat) :=
  if !(md.ensure_index idx) then .error ("No such message".toList)
  else if md.deleted idx then .error ("Message already deleted".toList)
  else .ok (idx, md.sizes.getD (idx - 1).toNat 0)

/-- The `dele` method: same checks, then `self.deleted[idx] = True`. -/
def Maildrop.dele (md : Maildrop) (idx : Int) : Except Str Maildrop :=
  if !(md.ensure_index idx) then .error ("No such message".toList)
  else if md.deleted idx then .error ("Message already deleted".toList)
  else .ok { md with deleted := fun j => if j = idx then true else md.deleted j }

/-- The `rset` method: `self.deleted = {}`. -/
def Maildrop.rset (md : Maildrop) : Maildrop := { md with deleted := fun _ => false }

/-- Normalization step `text.replace("\r\n", "\n")`. -/
def replaceCRLF : Str → Str
  | '\r' :: '\n' :: rest => '\n' :: replaceCRLF rest
  | c :: rest => c :: replaceCRLF rest
  | [] => []

/-- The CRLF line terminator constant of pop3_server.py. -/
def CRLF : Str := ['\r', '\n']

/-- The `retr` method: bounds and deletion checks, read the file, normalize
line endings to LF, split, dot-stuff each line, join with CRLF and append
the end-of-transmission marker. -/
def Maildrop.retr (md : Maildrop) (disk : List DiskFile) (idx : Int) : Except Str Str :=
  if !(md.ensure_index idx) then .error ("No such message".toList)
  else if md.deleted idx then .error ("Message already deleted".toList)
  else
    match readFile disk (md.messages.getD (idx - 1).toNat []) with
    | none => .error ("No such file or directory".toList)
    | some data =>
      let lines := ((replaceCRLF data).map (fun c => if c = '\r' then '\n' else c)).splitOn '\n'
      .ok (List.intercalate CRLF (lines.map stuffLine) ++ CRLF ++ ['.'] ++ CRLF)

/-- Names of the files marked for deletion, in message order:
`for i, p in enumerate(self.messages, start=1): if self.deleted.get(i)`. -/
def Maildrop.markedNames (md : Maildrop) : List Str :=
  ((List.range md.messages.length).filter (fun (i : Nat) => md.deleted ((i : Int) + 1))).map
    (fun i => md.messages.getD i [])

/-- The `commit` method with an explicit set of `unlink` calls that raise:
a failed unlink is swallowed (`except Exception: pass`) and the loop goes
on to the remaining marked files; afterwards `refresh` re-enumerates. -/
def Maildrop.commitWith (md : Maildrop) (disk : List DiskFile) (fails : Str → Bool) :
    Maildrop × List DiskFile :=
  let disk2 := disk.filter
    (fun f => !((md.markedNames.filter (fun n => !(fails n))).contains f.name))
  (Maildrop.refresh disk2, disk2)

/-- The `commit` method in a run where every unlink succeeds. -/
def Maildrop.commit (md : Maildrop) (disk : List DiskFile) : Maildrop × List DiskFile :=
  md.commitWith disk (fun _ => false)

/-! The POP3 session state machine of pop3_server.py. -/

/-- The configured credential pair. -/
def USERNAME : Str := "user".toList

/-- The configured password. -/
def PASSWORD : Str := "pass".toList

/-- The two values `POP3Session.state` takes (`"AUTH"`, `"TRANSACTION"`). -/
inductive POPStateTag where
  | auth
  | transaction
deriving DecidableEq, Repr

/-- The per-connection session object: state tag, recorded user name, and
the maildrop. -/
structure POPSession where
  tag : POPStateTag
  user : Option Str
  md : Maildrop

/-- Session for a fresh connection. -/
def POPSession.init : POPSession := ⟨.auth, none, Maildrop.empty⟩

/-- Everything the session writes to the socket. -/
inductive POPOut where
  /-- A +OK reply line with its text. -/
  | okLine (msg : Str)
  /-- A -ERR reply line with its text. -/
  | errLine (msg : Str)
  /-- A bare continuation line of a multi-line response. -/
  | line (s : Str)
  /-- The raw RETR payload written directly to the socket. -/
  | raw (payload : Str)
deriving DecidableEq, Repr

/-- Reply text of PASS success:
`f"Mailbox locked and ready, {count} messages ({octets} octets)"`. -/
def mailboxReadyMsg (count octets : Nat) : Str :=
  "Mailbox locked and ready, ".toList ++ natStr count ++ " messages (".toList
    ++ natStr octets ++ " octets)".toList

/-- One iteration of the `POP3Session.run` while loop on the input line
`raw` (CRLF already stripped).  `none` models an exception that no handler
catches, aborting the session with no reply: the only such point is the
tuple unpacking `cmd, *args = raw.split()`, which raises `ValueError` on a
line with no tokens, before the try block is entered.  Otherwise the result
is (new session, new disk, outputs written, loop breaks).  Exceptions
raised inside the try block are the `Except` error values of the maildrop
operations; the handler turns them into `-ERR str(e)`. -/
def popHandleLine (s : POPSession) (disk : List DiskFile) (raw : Str) :
    Option (POPSession × List DiskFile × List POPOut × Bool) :=
  match pySplit raw with
  | [] => none
  | cmd :: args =>
    let cmdU := pyUpper cmd
    match s.tag with
    | .auth =>
      if cmdU = "USER".toList then
        if args.length ≠ 1 then
          some (s, disk, [.errLine ("Syntax: USER <name>".toList)], false)
        else
          some ({ s with user := some (args.getD 0 []) }, disk,
                [.okLine ("User accepted, send PASS".toList)], false)
      else if cmdU = "PASS".toList then
        if s.user = none then
          some (s, disk, [.errLine ("Send USER first".toList)], false)
        else if args.length ≠ 1 then
          some (s, disk, [.errLine ("Syntax: PASS <password>".toList)], false)
        else if s.user = some USERNAME ∧ args.getD 0 [] = PASSWORD then
          let md := Maildrop.refresh disk
          let co := md.count_and_octets
          some ({ s with tag := .transaction, md := md }, disk,
                [.okLine (mailboxReadyMsg co.1 co.2)], false)
        else
          some (s, disk, [.errLine ("Authentication failed".toList)], false)
      else if cmdU = "QUIT".toList then
        some (s, disk, [.okLine ("Bye".toList)], true)
      else
        some (s, disk, [.errLine ("Authenticate first (USER/PASS)".toList)], false)
    | .transaction =>
      if cmdU = "STAT".toList then
        let co := s.md.count_and_octets
        some (s, disk, [.okLine (natStr co.1 ++ ' ' :: natStr co.2)], false)
      else if cmdU = "LIST".toList then
        if args.length = 0 then
          let all := s.md.list_all
          some (s, disk,
                .okLine (natStr all.length ++ " messages".toList)
                  :: all.map (fun e => .line (natStr e.1 ++ ' ' :: natStr e.2))
                  ++ [.line ['.']], false)
        else if args.length = 1 then
          match pyInt (args.getD 0 []) with
          | none => some (s, disk, [.errLine ("Syntax: LIST [msg]".toList)], false)
          | some idx =>
            match s.md.list_one idx with
            | .ok e => some (s, disk, [.okLine (intStr e.1 ++ ' ' :: natStr e.2)], false)
            | .error e => some (s, disk, [.errLine e], false)
        else
          some (s, disk, [.errLine ("Syntax: LIST [msg]".toList)], false)
      else if cmdU = "RETR".toList then
        if args.length ≠ 1 then
          some (s, disk, [.errLine ("Syntax: RETR <msg>".toList)], false)
        else
          match pyInt (args.getD 0 []) with
          | none => some (s, disk, [.errLine ("Syntax: RETR <msg>".toList)], false)
          | some idx =>
            match s.md.retr disk idx with
            | .error e => some (s, disk, [.errLine e], false)
            | .ok payload =>
              match s.md.list_one idx with
              | .error e => some (s, disk, [.errLine e], false)
              | .ok e =>
                some (s, disk,
                      [.okLine (natStr e.2 ++ " octets".toList), .raw payload], false)
      else if cmdU = "DELE".toList then
        if args.length ≠ 1 then
          some (s, disk, [.errLine ("Syntax: DELE <msg>".toList)], false)
        else
          match pyInt (args.getD 0 []) with
          | none => some (s, disk, [.errLine ("Syntax: DELE <msg>".toList)], false)
          | some idx =>
            match s.md.dele idx with
            | .error e => some (s, disk, [.errLine e], false)
            | .ok md2 =>
              some ({ s with md := md2 }, disk,
                    [.okLine (("Message ".toList ++ intStr idx) ++ " deleted".toList)], false)
      else if cmdU = "NOOP".toList then
        some (s, disk, [.okLine ("OK".toList)], false)
      else if cmdU = "RSET".toList then
        some ({ s with md := s.md.rset }, disk, [.okLine ("Reset".toList)], false)
      else if cmdU = "QUIT".toList then
        let r := s.md.commit disk
        some ({ s with md := r.1 }, r.2, [.okLine ("Bye".toList)], true)
      else
        some (s, disk, [.errLine ("Unknown or unsupported command".toList)], false)

/-- Example mailbox directory with two stored messages, for the concrete
instantiations below. -/
def exDisk : List DiskFile :=
  [{ name := "a.eml".toList, content := "abc".toList },
   { name := "b.eml".toList, content := "hello".toList }]

/-- The maildrop a session sees after authenticating against `exDisk`. -/
def exMd0 : Maildrop := Maildrop.refresh exDisk

/-- The maildrop after a successful `DELE 1` on `exMd0`. -/
def exMd1 : Maildrop :=
  { exMd0 with deleted := fun j => if j = 1 then true else exMd0.deleted j }

/-- Example directory with three stored messages, for the commit claim. -/
def exDisk3 : List DiskFile :=
  [{ name := "a.eml".toList, content := "abc".toList },
   { name := "b.eml".toList, content := "hello".toList },
   { name := "c.eml".toList, content := "x".toList }]

/-- A maildrop over `exDisk3` with messages 1 and 2 marked deleted. -/
def exMd3 : Maildrop :=
  { Maildrop.refresh exDisk3 with deleted := fun j => j == 1 || j == 2 }

/-! Helper lemmas. -/

/-- Un-stuffing a stuffed line recovers it: one transformation per line. -/
theorem unstuffLine_stuffLine (l : Str) : unstuffLine (stuffLine l) = l := by
  cases l with
  | nil => rfl
  | cons c t =>
    by_cases h : c = '.'
    · subst h
      simp [stuffLine, unstuffLine, List.isPrefixOf]
    · have hb : ('.' == c) = false := by
        simp [Ne.symm h]
      simp [stuffLine, unstuffLine, List.isPrefixOf, hb]

/-- Stuffing an un-stuffed transferable line recovers it. -/
theorem stuffLine_unstuffLine (l : Str) (h : transferLine l = true) :
    stuffLine (unstuffLine l) = l := by
  cases l with
  | nil => rfl
  | cons c t =>
    by_cases hc : c = '.'
    · subst hc
      cases t with
      | nil =>
        simp [transferLine, List.isPrefixOf] at h
      | cons d u =>
        by_cases hd : d = '.'
        · subst hd
          simp [unstuffLine, stuffLine, List.isPrefixOf]
        · have hb : ('.' == d) = false := by simp [Ne.symm hd]
          simp [transferLine, List.isPrefixOf, hb] at h
    · have hb : ('.' == c) = false := by simp [Ne.symm hc]
      simp [unstuffLine, stuffLine, List.isPrefixOf, hb]

/-! Claim theorems. -/

/-- C1: when the input stream ends during a DATA phase before the line
consisting of a single dot, the server nevertheless hands the partial body
to save_email and still writes the 354 and the final 250 reply.  The claim
(and the spec) say the truncated transfer is discarded with no save and no
reply; this theorem evaluates the embedded DATA branch at such an input and
exhibits the save call and the replies. -/
theorem C1_eof_in_data_still_saves :
    smtpCommand ⟨some "client".toList, some "x@y".toList, ["z@y".toList], none⟩
        "DATA".toList ["Partial body".toList]
      = (⟨some "client".toList, some "x@y".toList, ["z@y".toList], some "Partial body".toList⟩,
         [.r354, .r250accepted],
         [⟨some "x@y".toList, ["z@y".toList], "Partial body".toList⟩], false) := by
  rfl

/-- C2: after a successfully terminated DATA phase the transaction state is
not reset: the sender, the recipient list and the buffered body all remain
set, and a second DATA without any new MAIL FROM or RCPT TO is accepted
(354 then 250, with a second save_email call) instead of being rejected
with a sequencing error.  This contradicts the claim that the state
returns to the post-HELO baseline. -/
theorem C2_state_not_reset_after_data :
    (smtpCommand ⟨some "client".toList, some "x@y".toList, ["z@y".toList], none⟩
        "DATA".toList ["hi".toList, ".".toList]
      = (⟨some "client".toList, some "x@y".toList, ["z@y".toList], some "hi".toList⟩,
         [.r354, .r250accepted],
         [⟨some "x@y".toList, ["z@y".toList], "hi".toList⟩], false)) ∧
    (smtpCommand ⟨some "client".toList, some "x@y".toList, ["z@y".toList], some "hi".toList⟩
        "DATA".toList ["bye".toList, ".".toList]
      = (⟨some "client".toList, some "x@y".toList, ["z@y".toList], some "bye".toList⟩,
         [.r354, .r250accepted],
         [⟨some "x@y".toList, ["z@y".toList], "bye".toList⟩], false)) :=
  ⟨rfl, rfl⟩

/-- C3: the POP3 outbound dot-stuffing and the SMTP inbound transparency
rule are mutual inverses on every list of body lines: un-stuffing after
stuffing is the identity unconditionally, and stuffing after un-stuffing
is the identity for every list of lines as they can appear in a transfer
(each line starts with two dots or does not start with a dot). -/
theorem C3_dot_stuffing_mutual_inverse (lines : List Str) :
    ((lines.map stuffLine).map unstuffLine = lines) ∧
    ((∀ l ∈ lines, transferLine l = true) →
      (lines.map unstuffLine).map stuffLine = lines) := by
  constructor
  · rw [List.map_map]
    have h1 : ∀ l ∈ lines, (unstuffLine ∘ stuffLine) l = id l :=
      fun l _ => unstuffLine_stuffLine l
    rw [List.map_congr_left h1, List.map_id]
  · intro h
    rw [List.map_map]
    have h1 : ∀ l ∈ lines, (stuffLine ∘ unstuffLine) l = id l :=
      fun l hl => stuffLine_unstuffLine l (h l hl)
    rw [List.map_congr_left h1, List.map_id]

/-- C3 witness: the round trips evaluated on a concrete message containing
a dotted line. -/
theorem C3_witness :
    (([['.', '.', 'a'], "b".toList, [].map id].map stuffLine).map unstuffLine
        = [['.', '.', 'a'], "b".toList, []]) ∧
    (([['.', '.', 'a'], "b".toList, []].map unstuffLine).map stuffLine
        = [['.', '.', 'a'], "b".toList, []]) :=
  ⟨by
    have h := (C3_dot_stuffing_mutual_inverse [['.', '.', 'a'], "b".toList, []]).1
    simpa using h,
   (C3_dot_stuffing_mutual_inverse [['.', '.', 'a'], "b".toList, []]).2 (by decide)⟩

/-- C4: a line with no tokens (empty, or whitespace only) is unpacked by
`cmd, *args = raw.split()` before the try block is entered, so the
`ValueError` it raises is not caught: the session aborts with no reply, in
either protocol state.  This contradicts the claim that every input line,
including an empty line, gets a +OK or -ERR reply. -/
theorem C4_blank_line_aborts_session :
    popHandleLine POPSession.init [] [] = none ∧
    popHandleLine POPSession.init [] "   ".toList = none ∧
    popHandleLine ⟨.transaction, some USERNAME, Maildrop.empty⟩ [] [] = none := by
  refine ⟨?_, ?_, ?_⟩ <;> simp [popHandleLine, pySplit, pyIsSpace]

/-- C8: contract of the MAIL FROM branch: with no HELO recorded the command
is rejected with 503 and the state is untouched; with HELO recorded, a line
that does not match the bracketed-address pattern gets 501 with no state
change, and a matching line records the sender and clears any prior
recipients and buffered body. -/
theorem C8_mail_from_contract (st : SMTPState) (line : Str) (dataIn : List Str)
    (hdisp : ("MAIL FROM:".toList).isPrefixOf (pyUpper line) = true) :
    (st.helo = none → smtpCommand st line dataIn = (st, [.r503], [], false)) ∧
    (st.helo ≠ none → parseAngleAddr (line.drop 10) = none →
      smtpCommand st line dataIn = (st, [.r501], [], false)) ∧
    (∀ a, st.helo ≠ none → parseAngleAddr (line.drop 10) = some a →
      smtpCommand st line dataIn
        = ({ st with mail_from := some a, rcpt_to := [], data := none },
           [.r250ok], [], false)) := by
  have hne : ("HELO".toList).isPrefixOf (pyUpper line) = false := by
    cases hl : pyUpper line with
    | nil =>
      rw [hl] at hdisp
      exact absurd hdisp (by decide)
    | cons c cs =>
      rw [hl] at hdisp
      have h2 : (('M' == c) && (("AIL FROM:".toList).isPrefixOf cs)) = true := hdisp
      have hM : 'M' = c := eq_of_beq (Bool.and_eq_true _ _ |>.mp h2).1
      subst hM
      show (('H' == 'M') && (("ELO".toList).isPrefixOf cs)) = false
      simp
  have hdispP : (['M', 'A', 'I', 'L', ' ', 'F', 'R', 'O', 'M', ':'] : Str) <+: pyUpper line :=
    List.isPrefixOf_iff_prefix.mp hdisp
  have hneP : ¬ ((['H', 'E', 'L', 'O'] : Str) <+: pyUpper line) := by
    intro hc
    rw [← List.isPrefixOf_iff_prefix] at hc
    have hne2 : (['H', 'E', 'L', 'O'] : Str).isPrefixOf (pyUpper line) = false := hne
    rw [hne2] at hc
    exact absurd hc (by decide)
  refine ⟨?_, ?_, ?_⟩
  · intro h0
    simp [smtpCommand, hneP, hdispP, h0]
  · intro h0 hp
    cases hh : st.helo with
    | none => exact absurd hh h0
    | some w => simp [smtpCommand, hneP, hdispP, hh, hp]
  · intro a h0 hp
    cases hh : st.helo with
    | none => exact absurd hh h0
    | some w => simp [smtpCommand, hneP, hdispP, hh, hp]

/-- C8 witness: the three branches exercised at concrete inputs. -/
theorem C8_witness :
    (("MAIL FROM:".toList).isPrefixOf (pyUpper ("MAIL FROM:<a@b>".toList)) = true) ∧
    (smtpCommand ⟨none, none, [], none⟩ ("MAIL FROM:<a@b>".toList) []
      = (⟨none, none, [], none⟩, [.r503], [], false)) ∧
    (smtpCommand ⟨some "c".toList, none, [], none⟩ ("MAIL FROM:oops".toList) []
      = (⟨some "c".toList, none, [], none⟩, [.r501], [], false)) ∧
    (smtpCommand ⟨some "c".toList, none, [], none⟩ ("MAIL FROM:<a@b>".toList) []
      = (⟨some "c".toList, some "a@b".toList, [], none⟩, [.r250ok], [], false)) :=
  ⟨by decide,
   (C8_mail_from_contract _ _ [] (by decide)).1 rfl,
   (C8_mail_from_contract _ _ [] (by decide)).2.1 (by decide) (by decide),
   (C8_mail_from_contract _ _ [] (by decide)).2.2 ("a@b".toList) (by decide) (by decide)⟩

/-- Looking a name up in a grown directory: when the name is absent from the
first part, the lookup continues in the appended part. -/
theorem readFile_append_right (d l : List DiskFile) (n : Str)
    (h : readFile d n = none) : readFile (d ++ l) n = readFile l n := by
  induction d with
  | nil => rfl
  | cons f t ih =>
    by_cases hf : (f.name == n) = true
    · simp [readFile, List.find?, hf] at h
    · rw [Bool.not_eq_true] at hf
      simp only [readFile, List.cons_append, List.find?, hf] at h ⊢
      exact ih h

/-- C9: two save_email calls in the same clock tick (equal timestamp
prefix) with distinct uuid draws produce distinct filenames, and after both
saves each of the two records is retrievable under its own filename. -/
theorem C9_same_tick_distinct_files (d : List DiskFile)
    (t u1 u2 mf1 mf2 b1 b2 : Str) (r1 r2 : List Str)
    (hu : u1 ≠ u2)
    (h1 : readFile d (emailFilename t u1) = none)
    (h2 : readFile d (emailFilename t u2) = none) :
    emailFilename t u1 ≠ emailFilename t u2 ∧
    readFile (save_email (save_email d t u1 mf1 r1 b1) t u2 mf2 r2 b2)
        (emailFilename t u1) = some (emailRecord mf1 r1 b1) ∧
    readFile (save_email (save_email d t u1 mf1 r1 b1) t u2 mf2 r2 b2)
        (emailFilename t u2) = some (emailRecord mf2 r2 b2) := by
  have hne : emailFilename t u1 ≠ emailFilename t u2 := by
    intro he
    unfold emailFilename at he
    rw [List.append_assoc, List.append_assoc] at he
    have h3 := List.append_cancel_left he
    simp only [List.cons_append] at h3
    injection h3 with h4 h5
    exact hu (List.append_cancel_right h5)
  refine ⟨hne, ?_, ?_⟩
  · simp only [save_email, List.append_assoc]
    rw [readFile_append_right _ _ _ h1]
    simp [readFile, List.find?]
  · simp only [save_email, List.append_assoc]
    rw [readFile_append_right _ _ _ h2]
    have hb : (emailFilename t u1 == emailFilename t u2) = false :=
      beq_eq_false_iff_ne.mpr hne
    simp [readFile, List.find?, hb]

/-- C9 witness: two deliveries with the same timestamp and different uuid
values, both retrievable. -/
theorem C9_witness :
    emailFilename "20260101000000".toList "aaa".toList
        ≠ emailFilename "20260101000000".toList "bbb".toList ∧
    readFile (save_email (save_email [] "20260101000000".toList "aaa".toList
                "x@y".toList ["z@y".toList] "hi".toList)
              "20260101000000".toList "bbb".toList "x@y".toList ["z@y".toList] "yo".toList)
        (emailFilename "20260101000000".toList "aaa".toList)
      = some (emailRecord "x@y".toList ["z@y".toList] "hi".toList) ∧
    readFile (save_email (save_email [] "20260101000000".toList "aaa".toList
                "x@y".toList ["z@y".toList] "hi".toList)
              "20260101000000".toList "bbb".toList "x@y".toList ["z@y".toList] "yo".toList)
        (emailFilename "20260101000000".toList "bbb".toList)
      = some (emailRecord "x@y".toList ["z@y".toList] "yo".toList) :=
  C9_same_tick_distinct_files [] _ _ _ _ _ _ _ _ _ (by decide) rfl rfl

/-- Inserting into a list permutes consing onto it. -/
theorem insertSorted_perm (le : α → α → Bool) (a : α) (l : List α) :
    (insertSorted le a l).Perm (a :: l) := by
  induction l with
  | nil => exact List.Perm.refl _
  | cons b t ih =>
    by_cases h : le a b = true
    · simp [insertSorted, h]
    · simp only [insertSorted, h, if_false]
      exact (ih.cons b).trans (List.Perm.swap a b t)

/-- The insertion sort permutes its input. -/
theorem sortBy_perm (le : α → α → Bool) (l : List α) : (sortBy le l).Perm l := by
  induction l with
  | nil => exact List.Perm.refl _
  | cons a t ih => exact (insertSorted_perm le a (sortBy le t)).trans (ih.cons a)

/-- Summing 1 per element not satisfying the mark counts the unmarked
elements. -/
theorem sum_map_ite_eq_length_filter (l : List Nat) (p : Nat → Bool) :
    (l.map (fun i => if p i then 0 else 1)).sum = (l.filter (fun i => !(p i))).length := by
  induction l with
  | nil => rfl
  | cons a t ih =>
    by_cases h : p a = true <;> simp [h, ih, List.filter_cons] <;> omega

/-- Anatomy of a successful `dele`: the checks passed and only the deletion
dict changed, at the given key. -/
theorem dele_ok_spec (md : Maildrop) (n : Int) (md' : Maildrop)
    (h : md.dele n = .ok md') :
    md'.messages = md.messages ∧ md'.sizes = md.sizes ∧ md'.uidls = md.uidls ∧
    md'.deleted = (fun j => if j = n then true else md.deleted j) ∧
    md.ensure_index n = true ∧ md.deleted n = false := by
  unfold Maildrop.dele at h
  split at h
  · exact Except.noConfusion h
  · split at h
    · exact Except.noConfusion h
    · rename_i h1 h2
      injection h with h3
      subst h3
      refine ⟨rfl, rfl, rfl, rfl, ?_, ?_⟩
      · simpa using h1
      · simpa using h2

/-- C6: the STAT count equals the number of LIST entries, the STAT octet
total equals the sum of the LIST sizes, and no soft-deleted message number
occurs among the LIST entries. -/
theorem C6_stat_consistent_with_list (md : Maildrop) :
    md.count_and_octets.1 = md.list_all.length ∧
    md.count_and_octets.2 = (md.list_all.map Prod.snd).sum ∧
    (∀ i : Nat, md.deleted ((i : Int) + 1) = true → (i + 1) ∉ md.list_all.map Prod.fst) := by
  refine ⟨?_, ?_, ?_⟩
  · simp only [Maildrop.count_and_octets, Maildrop.list_all, List.length_map]
    exact sum_map_ite_eq_length_filter _ _
  · simp only [Maildrop.count_and_octets, Maildrop.list_all, List.map_map]
    rfl
  · intro i hdel hmem
    simp only [Maildrop.list_all, List.map_map, List.mem_map, Function.comp,
      List.mem_filter, List.mem_range] at hmem
    obtain ⟨j, ⟨hjr, hjd⟩, hji⟩ := hmem
    have hij : j = i := by omega
    subst hij
    rw [hdel] at hjd
    exact absurd hjd (by decide)

/-- C10: a successful `dele n` only sets the deletion flag of `n`: the
message list, the size list, the UIDL list, and every other deletion flag
are unchanged. -/
theorem C10_dele_frame (md md' : Maildrop) (n : Int) (h : md.dele n = .ok md') :
    md'.messages = md.messages ∧ md'.sizes = md.sizes ∧ md'.uidls = md.uidls ∧
    md'.deleted n = true ∧ (∀ j : Int, j ≠ n → md'.deleted j = md.deleted j) := by
  obtain ⟨h1, h2, h3, h4, _, _⟩ := dele_ok_spec md n md' h
  refine ⟨h1, h2, h3, ?_, ?_⟩
  · rw [h4]; simp
  · intro j hj; rw [h4]; simp [hj]

/-- C10 witness: `DELE 1` on the freshly refreshed two-message maildrop. -/
theorem C10_witness :
    exMd1.messages = exMd0.messages ∧ exMd1.sizes = exMd0.sizes ∧
    exMd1.uidls = exMd0.uidls ∧ exMd1.deleted 1 = true ∧
    (∀ j : Int, j ≠ 1 → exMd1.deleted j = exMd0.deleted j) :=
  C10_dele_frame exMd0 exMd1 1 rfl

/-- C5 counterexample: in a maildrop state that already carries a deletion
mark (message 1 of two marked, reachable by `DELE 1` from the refreshed
state), a successful `DELE 2` followed by `RSET` does not restore the
count, octets and LIST output from immediately before the `DELE 2`: RSET
clears the pre-existing mark as well.  Before: count 1, octets 5, LIST
[(2, 5)].  After DELE 2 and RSET: count 2, octets 8, LIST [(1, 3), (2, 5)]. -/
theorem C5_counterexample :
    (exMd0.dele 1 = .ok exMd1) ∧
    ((exMd1.dele 2).map (fun m => (m.rset.count_and_octets, m.rset.list_all))
        = .ok ((2, 8), [(1, 3), (2, 5)])) ∧
    ((exMd1.count_and_octets, exMd1.list_all) = ((1, 5), [(2, 5)])) ∧
    ((((2 : Nat), (8 : Nat)), ([(1, 3), (2, 5)] : List (Nat × Nat)))
        ≠ (((1 : Nat), (5 : Nat)), ([(2, 5)] : List (Nat × Nat)))) :=
  ⟨rfl, rfl, by decide, by decide⟩

/-- C5 amended: starting from a maildrop state with no deletion marks (the
state every refresh establishes), a successful `DELE n` followed by `RSET`
leaves count, octets and LIST output identical to immediately before the
`DELE n`. -/
theorem C5_amended_dele_rset_roundtrip (md : Maildrop) (n : Int)
    (h0 : ∀ j, md.deleted j = false) (hidx : md.ensure_index n = true) :
    (md.dele n).map (fun m => (m.rset.count_and_octets, m.rset.list_all))
      = .ok (md.count_and_octets, md.list_all) := by
  have hmd : ({ md with deleted := fun _ => false } : Maildrop) = md := by
    obtain ⟨a, b, c, d⟩ := md
    have hd : (fun _ : Int => false) = d := funext fun j => (h0 j).symm
    rw [Maildrop.mk.injEq]
    exact ⟨rfl, rfl, rfl, hd⟩
  unfold Maildrop.dele
  rw [hidx, h0 n]
  simp only [Bool.not_true, Bool.false_eq_true, if_false, Except.map]
  rw [show (Maildrop.rset { md with deleted := fun j => if j = n then true else md.deleted j })
        = ({ md with deleted := fun _ => false } : Maildrop) from rfl, hmd]

/-- C5 amended witness: `DELE 1` then `RSET` on the refreshed two-message
maildrop restores its STAT and LIST exactly. -/
theorem C5_amended_witness :
    (exMd0.dele 1).map (fun m => (m.rset.count_and_octets, m.rset.list_all))
      = .ok (exMd0.count_and_octets, exMd0.list_all) :=
  C5_amended_dele_rset_roundtrip exMd0 1 (fun _ => rfl) (by decide)

/-- A marked name that the unlink loop actually removes (its unlink did not
fail) is absent from the directory after commit. -/
theorem commitWith_removes (md : Maildrop) (disk : List DiskFile) (fails : Str → Bool)
    (nm : Str) (hin : nm ∈ md.markedNames) (hf : fails nm = false) :
    nm ∉ ((md.commitWith disk fails).2.map DiskFile.name) := by
  intro hmem
  simp only [Maildrop.commitWith, List.mem_map] at hmem
  obtain ⟨f, hf2, hfn⟩ := hmem
  rw [List.mem_filter] at hf2
  obtain ⟨_, hcond⟩ := hf2
  rw [hfn] at hcond
  have hmem2 : nm ∈ md.markedNames.filter (fun n => !(fails n)) :=
    List.mem_filter.mpr ⟨hin, by rw [hf]; rfl⟩
  have hc : (md.markedNames.filter (fun n => !(fails n))).contains nm = true :=
    List.elem_iff.mpr hmem2
  rw [hc] at hcond
  exact absurd hcond (by decide)

/-- The refreshed message list is a permutation of the names of the
enumerated directory files. -/
theorem refresh_messages_perm (d : List DiskFile) :
    (Maildrop.refresh d).messages.Perm ((d.filter isEml).map DiskFile.name) := by
  simp only [Maildrop.refresh, enumerateEml]
  exact List.Perm.map DiskFile.name (sortBy_perm _ _)

/-- Every refreshed message name is the name of a directory file. -/
theorem refresh_messages_subset (d : List DiskFile) (nm : Str)
    (h : nm ∈ (Maildrop.refresh d).messages) : nm ∈ d.map DiskFile.name := by
  rw [(refresh_messages_perm d).mem_iff] at h
  simp only [List.mem_map] at h ⊢
  obtain ⟨f, hf, hfn⟩ := h
  exact ⟨f, (List.mem_filter.mp hf).1, hfn⟩

/-- A directory without duplicate names refreshes to a duplicate-free
message list. -/
theorem refresh_messages_nodup (d : List DiskFile)
    (hnd : (d.map DiskFile.name).Nodup) : (Maildrop.refresh d).messages.Nodup := by
  have hsub : ((d.filter isEml).map DiskFile.name).Sublist (d.map DiskFile.name) :=
    List.Sublist.map DiskFile.name (List.filter_sublist d)
  exact List.Perm.nodup (refresh_messages_perm d).symm (hsub.nodup hnd)

/-- Length of the refreshed message list. -/
theorem refresh_messages_length (d : List DiskFile) :
    (Maildrop.refresh d).messages.length = (d.filter isEml).length := by
  rw [(refresh_messages_perm d).length_eq, List.length_map]

/-- Every marked name is one of the messages. -/
theorem markedNames_subset (md : Maildrop) (nm : Str) (h : nm ∈ md.markedNames) :
    nm ∈ md.messages := by
  simp only [Maildrop.markedNames, List.mem_map, List.mem_filter, List.mem_range] at h
  obtain ⟨i, ⟨hir, _⟩, hget⟩ := h
  rw [List.getD_eq_getElem md.messages [] hir] at hget
  exact hget ▸ List.getElem_mem hir

/-- With duplicate-free messages the marked names are duplicate-free. -/
theorem markedNames_nodup (md : Maildrop) (hm : md.messages.Nodup) :
    md.markedNames.Nodup := by
  unfold Maildrop.markedNames
  refine (List.nodup_map_iff_inj_on ?_).mpr ?_
  · exact (List.nodup_range _).filter _
  · intro i hi j hj hij
    rw [List.mem_filter, List.mem_range] at hi hj
    rw [List.getD_eq_getElem md.messages [] hi.1, List.getD_eq_getElem md.messages [] hj.1]
      at hij
    exact (List.Nodup.getElem_inj_iff hm).mp hij

/-- Filtering on the complement keeps the complement count. -/
theorem length_filter_not_bool (l : List α) (p : α → Bool) :
    (l.filter (fun a => !(p a))).length = l.length - (l.filter p).length := by
  induction l with
  | nil => rfl
  | cons a t ih =>
    have hle := List.length_filter_le p t
    by_cases h : p a = true <;> simp [h, ih, List.filter_cons] <;> omega

/-- Splitting a filter on a disjunction of disjoint marks. -/
theorem length_filter_or (l : List α) (p q : α → Bool)
    (h : ∀ a ∈ l, ¬(p a = true ∧ q a = true)) :
    (l.filter (fun a => p a || q a)).length = (l.filter p).length + (l.filter q).length := by
  induction l with
  | nil => rfl
  | cons a t ih =>
    have ht : ∀ b ∈ t, ¬(p b = true ∧ q b = true) :=
      fun b hb => h b (List.mem_cons_of_mem a hb)
    have ha := h a (List.mem_cons_self a t)
    by_cases hp : p a = true
    · have hq : q a = false := by
        cases hqv : q a with
        | false => rfl
        | true => exact absurd ⟨hp, hqv⟩ ha
      simp [List.filter_cons, hp, hq, ih ht]
      omega
    · rw [Bool.not_eq_true] at hp
      by_cases hq : q a = true <;>
        simp [List.filter_cons, hp, hq, ih ht] <;> omega

/-- A duplicate-free list holds exactly one copy of a member. -/
theorem length_filter_beq_of_nodup (l : List Str) (n : Str) (hl : l.Nodup) (hn : n ∈ l) :
    (l.filter (fun x => x == n)).length = 1 := by
  induction l with
  | nil => cases hn
  | cons a t ih =>
    rw [List.nodup_cons] at hl
    obtain ⟨ha, ht⟩ := hl
    rcases List.mem_cons.mp hn with h | h
    · subst h
      have hnil : t.filter (fun x => x == n) = [] := by
        rw [List.filter_eq_nil_iff]
        intro x hx
        simp only [beq_iff_eq]
        intro hxa
        exact ha (hxa ▸ hx)
      simp [List.filter_cons, hnil]
    · have hna : (a == n) = false := by
        refine beq_eq_false_iff_ne.mpr ?_
        intro he
        exact ha (he ▸ h)
      simp only [List.filter_cons, hna]
      simp only [Bool.false_eq_true, if_false]
      exact ih ht h

/-- Filtering a duplicate-free file list for a duplicate-free set of names
it covers selects exactly one file per name. -/
theorem length_filter_contains (L : List DiskFile) (S : List Str)
    (hL : (L.map DiskFile.name).Nodup) (hS : S.Nodup)
    (hsub : ∀ n ∈ S, n ∈ L.map DiskFile.name) :
    (L.filter (fun f => S.contains f.name)).length = S.length := by
  induction S with
  | nil =>
    simp [List.contains]
  | cons n S' ih =>
    rw [List.nodup_cons] at hS
    obtain ⟨hnS, hS'⟩ := hS
    have hcongr : L.filter (fun f => (n :: S').contains f.name)
        = L.filter (fun f => (f.name == n) || S'.contains f.name) := by
      apply List.filter_congr
      intro f _
      cases hb : f.name == n with
      | false => simp only [List.contains, List.elem_cons, hb, Bool.false_or]
      | true => simp only [List.contains, List.elem_cons, hb, Bool.true_or]
    rw [hcongr, length_filter_or]
    · have h1 : (L.filter (fun f => f.name == n)).length = 1 := by
        have hone := length_filter_beq_of_nodup (L.map DiskFile.name) n hL
          (hsub n (List.mem_cons_self n S'))
        rw [List.filter_map, List.length_map] at hone
        exact hone
      rw [h1, ih hS' (fun m hm => hsub m (List.mem_cons_of_mem _ hm))]
      simp only [List.length_cons]
      omega
    · rintro f _ ⟨hp, hq⟩
      have hfn : f.name = n := eq_of_beq hp
      rw [hfn] at hq
      exact hnS (List.elem_iff.mp hq)

/-- After a refresh nothing is marked deleted, so the LIST numbering is the
contiguous range 1..N. -/
theorem list_all_refresh_numbers (d : List DiskFile) :
    (Maildrop.refresh d).list_all.map Prod.fst
      = (List.range ((Maildrop.refresh d).messages.length)).map (fun i => i + 1) := by
  simp only [Maildrop.list_all, Maildrop.refresh, List.map_map]
  simp [Function.comp]

/-- C7: committing a maildrop whose snapshot was taken from the directory
removes every marked file from the directory (an unlink failure on one
file does not prevent the removal of the others), the deleted filenames no
longer occur on disk or in the re-enumerated message list, the fresh
enumeration holds exactly N - k messages, and its LIST numbering is the
contiguous range starting at 1. -/
theorem C7_commit_removes_and_renumbers (md : Maildrop) (disk : List DiskFile)
    (fails : Str → Bool)
    (hmsg : md.messages = (Maildrop.refresh disk).messages)
    (hnd : (disk.map DiskFile.name).Nodup) :
    (∀ nm ∈ md.markedNames, nm ∉ ((md.commit disk).2.map DiskFile.name)) ∧
    (∀ nm ∈ md.markedNames, nm ∉ (md.commit disk).1.messages) ∧
    ((md.commit disk).1.messages.length = md.messages.length - md.markedNames.length) ∧
    ((md.commit disk).1.list_all.map Prod.fst
        = (List.range ((md.commit disk).1.messages.length)).map (fun i => i + 1)) ∧
    (∀ nm ∈ md.markedNames, fails nm = false →
        nm ∉ ((md.commitWith disk fails).2.map DiskFile.name)) := by
  have hmnodup : md.markedNames.Nodup := by
    apply markedNames_nodup
    rw [hmsg]
    exact refresh_messages_nodup disk hnd
  have hmsub : ∀ nm ∈ md.markedNames, nm ∈ (disk.filter isEml).map DiskFile.name := by
    intro nm h
    have h2 := markedNames_subset md nm h
    rw [hmsg, (refresh_messages_perm disk).mem_iff] at h2
    exact h2
  have hLnodup : ((disk.filter isEml).map DiskFile.name).Nodup :=
    (List.Sublist.map DiskFile.name (List.filter_sublist disk)).nodup hnd
  refine ⟨?_, ?_, ?_, ?_, ?_⟩
  · intro nm h
    exact commitWith_removes md disk (fun _ => false) nm h rfl
  · intro nm h hmem
    exact commitWith_removes md disk (fun _ => false) nm h rfl
      (refresh_messages_subset ((md.commit disk).2) nm hmem)
  · have hdisk2 : (md.commit disk).2
        = disk.filter (fun f => !(md.markedNames.contains f.name)) := by
      simp only [Maildrop.commit, Maildrop.commitWith, Bool.not_false, List.filter_true]
    have hlen : (md.commit disk).1.messages.length
        = (((md.commit disk).2).filter isEml).length := refresh_messages_length _
    rw [hdisk2] at hlen
    have hcomm : ((disk.filter (fun f => !(md.markedNames.contains f.name))).filter isEml)
        = ((disk.filter isEml).filter (fun f => !(md.markedNames.contains f.name))) := by
      rw [List.filter_filter, List.filter_filter]
      apply List.filter_congr
      intro f _
      exact Bool.and_comm _ _
    rw [hcomm, length_filter_not_bool,
      length_filter_contains (disk.filter isEml) md.markedNames hLnodup hmnodup hmsub]
      at hlen
    rw [hlen, hmsg, refresh_messages_length]
  · exact list_all_refresh_numbers _
  · intro nm h hf
    exact commitWith_removes md disk fails nm h hf

/-- C7 witness: a three-message directory with messages 1 and 2 marked;
after QUIT-commit both files are gone and one message remains, numbered 1;
with an unlink failure injected for the first file, the second marked file
is still removed. -/
theorem C7_witness :
    ("a.eml".toList ∈ exMd3.markedNames) ∧
    ("a.eml".toList ∉ ((exMd3.commit exDisk3).2.map DiskFile.name)) ∧
    ("b.eml".toList ∉ (exMd3.commit exDisk3).1.messages) ∧
    ((exMd3.commit exDisk3).1.messages.length
        = exMd3.messages.length - exMd3.markedNames.length) ∧
    ((exMd3.commit exDisk3).1.list_all.map Prod.fst
        = (List.range ((exMd3.commit exDisk3).1.messages.length)).map (fun i => i + 1)) ∧
    ("b.eml".toList
        ∉ ((exMd3.commitWith exDisk3 (fun n => n == "a.eml".toList)).2.map DiskFile.name)) := by
  have h := C7_commit_removes_and_renumbers exMd3 exDisk3
    (fun n => n == "a.eml".toList) rfl (by decide)
  exact ⟨by decide, h.1 _ (by decide), h.2.1 _ (by decide), h.2.2.1, h.2.2.2.1,
    h.2.2.2.2 _ (by decide) (by decide)⟩

/-- C6 witness: the STAT/LIST consistency evaluated on a maildrop with one
deleted message, where message number 1 is deleted and absent from LIST. -/
theorem C6_witness :
    exMd1.count_and_octets.1 = exMd1.list_all.length ∧
    exMd1.count_and_octets.2 = (exMd1.list_all.map Prod.snd).sum ∧
    (0 + 1) ∉ exMd1.list_all.map Prod.fst :=
  ⟨(C6_stat_consistent_with_list exMd1).1,
   (C6_stat_consistent_with_list exMd1).2.1,
   (C6_stat_consistent_with_list exMd1).2.2 0 (by decide)⟩
